import Mathlib

/-
  Verification development for the pygame SDL2 event module (src/event.c).

  The definitions below are a shallow embedding of the C code of
  src/event.c.  Machine integers are modelled with Nat and Int together
  with explicit reductions modulo 2^32 (and casts) exactly where the C
  performs implicit conversions.  The native SDL layer (queue, per-type
  ignore flags, blocking wait) is modelled as explicit state threaded
  through the operations.  Constants of the external SDL2 library carry
  their actual SDL2 header values.  Constants of the pygame logical
  enumeration live in a header that is not part of the sources at hand,
  so they are modelled from the specification (historical SDL 1.2
  values, a fixed external contract per the spec).
-/

/-! ## Machine-integer helpers -/

/-- Value of an Int reinterpreted as a 32-bit unsigned quantity
    (C conversion to Uint32). -/
def u32 (i : Int) : Nat := (i % 4294967296).toNat

/-- Value of a Nat (a Uint32 quantity) reinterpreted as a 32-bit signed
    int, two-complement style (C conversion from Uint32 to int). -/
def i32ofU32 (n : Nat) : Int :=
  let m := n % 4294967296
  if m < 2147483648 then (m : Int) else (m : Int) - 4294967296

/-- Unsigned 32-bit subtraction a - b (wrap-around), operands already
    reduced mod 2^32 by the caller or here. -/
def u32sub (a b : Nat) : Nat := (a % 4294967296 + 4294967296 - b % 4294967296) % 4294967296

/-- Smallest value of a C int, used by get_sdl_event_code. -/
def INT_MIN : Int := -2147483648

/-! ## External SDL2 constants (values from the SDL2 headers) -/

def SDL_QUIT : Nat := 0x100
def SDL_WINDOWEVENT : Nat := 0x200
def SDL_SYSWMEVENT : Nat := 0x201
def SDL_KEYDOWN : Nat := 0x300
def SDL_KEYUP : Nat := 0x301
def SDL_MOUSEMOTION : Nat := 0x400
def SDL_MOUSEBUTTONDOWN : Nat := 0x401
def SDL_MOUSEBUTTONUP : Nat := 0x402
def SDL_JOYAXISMOTION : Nat := 0x600
def SDL_JOYBALLMOTION : Nat := 0x601
def SDL_JOYHATMOTION : Nat := 0x602
def SDL_JOYBUTTONDOWN : Nat := 0x603
def SDL_JOYBUTTONUP : Nat := 0x604
def SDL_USEREVENT : Nat := 0x8000

def SDL_WINDOWEVENT_EXPOSED : Nat := 3
def SDL_WINDOWEVENT_RESIZED : Nat := 5
def SDL_WINDOWEVENT_MINIMIZED : Nat := 7
def SDL_WINDOWEVENT_RESTORED : Nat := 9
def SDL_WINDOWEVENT_ENTER : Nat := 10
def SDL_WINDOWEVENT_LEAVE : Nat := 11
def SDL_WINDOWEVENT_FOCUS_GAINED : Nat := 12
def SDL_WINDOWEVENT_FOCUS_LOST : Nat := 13

def SDL_HAT_UP : Nat := 0x01
def SDL_HAT_RIGHT : Nat := 0x02
def SDL_HAT_DOWN : Nat := 0x04
def SDL_HAT_LEFT : Nat := 0x08

/-- Modelled from the spec: the pygame logical event-type enumeration
    (PGE codes) lives in pygame.h, which is not among the sources at
    hand; the spec fixes it as the legacy, densely packed SDL 1.2
    enumeration whose historical numeric values are a fixed external
    contract: one no-op value 0, the built-in band, and the user band
    from UserBase up to NumTypes.  PGE_OTHEREVENT, the fallback
    category, is the last built-in value below the user band. -/
def PGE_NOEVENT : Int := 0
def PGE_ACTIVEEVENT : Int := 1
def PGE_KEYDOWN : Int := 2
def PGE_KEYUP : Int := 3
def PGE_MOUSEMOTION : Int := 4
def PGE_MOUSEBUTTONDOWN : Int := 5
def PGE_MOUSEBUTTONUP : Int := 6
def PGE_JOYAXISMOTION : Int := 7
def PGE_JOYBALLMOTION : Int := 8
def PGE_JOYHATMOTION : Int := 9
def PGE_JOYBUTTONDOWN : Int := 10
def PGE_JOYBUTTONUP : Int := 11
def PGE_QUIT : Int := 12
def PGE_SYSWMEVENT : Int := 13
def PGE_VIDEORESIZE : Int := 16
def PGE_VIDEOEXPOSE : Int := 17
def PGE_OTHEREVENT : Int := 23
def PGE_USEREVENT : Int := 24
def PGE_NUMEVENTS : Int := 32

/-- Modelled from the spec: the active-event state flags of the legacy
    enumeration (historical SDL 1.2 values). -/
def PGE_APPFOCUSMOUSE : Int := 0x01
def PGE_APPINPUTFOCUS : Int := 0x02
def PGE_APPACTIVE : Int := 0x04

/-- PGE_NON_SDL_EVENT is ((SDL_EventType)-1) in event.c; the enum has
    int as underlying type, so the sentinel is -1 and reads as
    0xFFFFFFFF wherever it is converted to Uint32. -/
def PGE_NON_SDL_EVENT : Int := -1

def USEROBJECT_CHECK1 : Nat := 0xDEADBEEF
def USEROBJECT_CHECK2 : Nat := 0xFEEDF00D

/-- PGE_ALLEVENTS is ((Uint32)-1). -/
def PGE_ALLEVENTS : Nat := 4294967295

/-! ## Native event records

A fixed-layout SDL_Event record, restricted to the fields event.c
reads.  Numeric fields carry the value ranges of the C struct fields:
Uint32 fields are Nat, signed fields are Int. -/

structure SDLEvent where
  /-- Uint32 event type code (e.type in the C union). -/
  etype : Nat := 0
  /-- Uint8 window sub-event code (e.window.event). -/
  winEvent : Nat := 0
  /-- Uint32 window id (e.window.windowID). -/
  windowID : Nat := 0
  /-- Sint32 data1 of a window event (e.window.data1). -/
  winData1 : Int := 0
  /-- Sint32 data2 of a window event (e.window.data2). -/
  winData2 : Int := 0
  /-- Whether e.key.repeat is nonzero. -/
  keyRepeat : Bool := false
  /-- Uint32 e.key.timestamp. -/
  keyTimestamp : Nat := 0
  /-- SDL_Keycode e.key.keysym.sym (Sint32). -/
  keySym : Int := 0
  /-- Uint16 e.key.keysym.mod, as an Int so that C int masking applies. -/
  keyMod : Int := 0
  /-- e.key.keysym.scancode. -/
  keyScancode : Nat := 0
  /-- Sint32 e.motion.x, e.motion.y, e.motion.xrel, e.motion.yrel. -/
  motionX : Int := 0
  motionY : Int := 0
  motionXrel : Int := 0
  motionYrel : Int := 0
  /-- Uint32 e.motion.state button bitmask. -/
  motionState : Nat := 0
  /-- e.button fields. -/
  buttonX : Int := 0
  buttonY : Int := 0
  buttonButton : Nat := 0
  /-- e.jaxis fields; value is Sint16. -/
  jaxisWhich : Nat := 0
  jaxisAxis : Nat := 0
  jaxisValue : Int := 0
  /-- e.jball fields. -/
  jballWhich : Nat := 0
  jballBall : Nat := 0
  jballXrel : Int := 0
  jballYrel : Int := 0
  /-- e.jhat fields; value is a Uint8 direction bitmask. -/
  jhatWhich : Nat := 0
  jhatHat : Nat := 0
  jhatValue : Nat := 0
  /-- e.jbutton fields. -/
  jbuttonWhich : Nat := 0
  jbuttonButton : Nat := 0
  /-- Sint32 e.user.code, stored here as its Uint32 bit pattern. -/
  userCode : Nat := 0
  /-- e.user.data1 pointer, as its bit pattern (sentinel comparisons). -/
  userData1 : Nat := 0
  /-- e.user.data2 pointer: the registry handle carried by the event. -/
  userData2 : Nat := 0
  /-- String content behind e.user.data1 for the filename special case. -/
  userData1Str : String := ""
  deriving Repr, DecidableEq

/-! ## Key repeat state and the repeat filter (Py_PollEvent, Py_WaitEvent)

The KeyRepeat struct has four C int fields; timestamp is an int that
receives Uint32 timestamps and re-enters comparisons converted back to
unsigned, which the model reproduces exactly. -/

structure KeyRepeat where
  delay : Int
  interval : Int
  firsttime : Int
  timestamp : Int
  deriving Repr, DecidableEq

/-- Py_EnableKeyRepeat: rejects negative values, otherwise resets the
    whole repeat state. -/
def Py_EnableKeyRepeat (delay interval : Int) : Option KeyRepeat :=
  if delay < 0 ∨ interval < 0 then none
  else some { delay := delay, interval := interval, firsttime := 0, timestamp := 0 }

/-- Loop body shared verbatim by Py_PollEvent and Py_WaitEvent: given
    the repeat state and the event in the buffer, decide whether the C
    code executes continue (the event is suppressed) and how the state
    changes.  The comparisons reproduce the C arithmetic conversions:
    both timestamp differences are computed in unsigned 32-bit
    arithmetic and compared against delay and interval converted to
    unsigned. -/
def repeatFilterStep (r : KeyRepeat) (e : SDLEvent) : Bool × KeyRepeat :=
  let repeatEnabled : Bool := r.delay > 0 ∨ r.interval > 0
  if e.etype = SDL_KEYDOWN then
    if e.keyRepeat then
      if ¬repeatEnabled then (true, r)
      else if r.firsttime ≠ 0 then
        -- C: (repeat.timestamp - e->key.timestamp) < repeat.delay
        if u32sub (u32 r.timestamp) e.keyTimestamp < u32 r.delay then (true, r)
        else (false, { r with firsttime := 0, timestamp := i32ofU32 e.keyTimestamp })
      else
        -- C: (e->key.timestamp - repeat.timestamp) < repeat.interval
        if u32sub e.keyTimestamp (u32 r.timestamp) < u32 r.interval then (true, r)
        else (false, { r with timestamp := i32ofU32 e.keyTimestamp })
    else
      if repeatEnabled then
        (false, { r with firsttime := 1, timestamp := i32ofU32 e.keyTimestamp })
      else (false, r)
  else (false, r)

/-- Py_PollEvent: repeatedly takes the next event from the queue,
    dropping suppressed repeat keydowns, until an event is to be
    returned (rcode 1) or the queue is exhausted (rcode 0).  Returns
    the returned event (if any), the final repeat state and the rest
    of the queue. -/
def Py_PollEvent (r : KeyRepeat) : List SDLEvent → Option SDLEvent × KeyRepeat × List SDLEvent
  | [] => (none, r, [])
  | e :: rest =>
    let (cont, r') := repeatFilterStep r e
    if cont then Py_PollEvent r' rest else (some e, r', rest)

/-- Outcome trace of the repeat filter over a whole queue: for every
    event, true when the code lets it through (successive Py_PollEvent
    calls return it), false when it is suppressed. -/
def repeatScan (r : KeyRepeat) : List SDLEvent → List Bool
  | [] => []
  | e :: rest =>
    let (cont, r') := repeatFilterStep r e
    (!cont) :: repeatScan r' rest

/-- Modelled from the spec (section 4.3 threshold algorithm), for
    comparison with the code: on a repeat keydown with repeat enabled,
    while the first repeat is pending suppress when
    timestamp - savedTimestamp < delay and otherwise let it through,
    clearing the pending flag and saving the timestamp; on later
    repeats suppress when timestamp - savedTimestamp < interval and
    otherwise let it through, saving the timestamp.  A non-repeat
    keydown is let through and (repeat enabled) restarts tracking. -/
def specRepeatStep (r : KeyRepeat) (e : SDLEvent) : Bool × KeyRepeat :=
  let repeatEnabled : Bool := r.delay > 0 ∨ r.interval > 0
  if e.etype = SDL_KEYDOWN then
    if e.keyRepeat then
      if ¬repeatEnabled then (true, r)
      else if r.firsttime ≠ 0 then
        if (e.keyTimestamp : Int) - r.timestamp < r.delay then (true, r)
        else (false, { r with firsttime := 0, timestamp := (e.keyTimestamp : Int) })
      else
        if (e.keyTimestamp : Int) - r.timestamp < r.interval then (true, r)
        else (false, { r with timestamp := (e.keyTimestamp : Int) })
    else
      if repeatEnabled then
        (false, { r with firsttime := 1, timestamp := (e.keyTimestamp : Int) })
      else (false, r)
  else (false, r)

/-- Modelled from the spec: outcome trace of the threshold algorithm of
    section 4.3 over a whole queue (true = let through). -/
def specRepeatScan (r : KeyRepeat) : List SDLEvent → List Bool
  | [] => []
  | e :: rest =>
    let (cont, r') := specRepeatStep r e
    (!cont) :: specRepeatScan r' rest

/-- A repeat keydown native event at a given timestamp. -/
def repeatKeydownAt (t : Nat) : SDLEvent :=
  { etype := SDL_KEYDOWN, keyRepeat := true, keyTimestamp := t }

/-- A fresh (non-repeat) keydown native event at a given timestamp. -/
def freshKeydownAt (t : Nat) : SDLEvent :=
  { etype := SDL_KEYDOWN, keyRepeat := false, keyTimestamp := t }

/-- The claim trace: a non-repeat keydown at 0 followed by repeat
    keydowns at 0, 100, 400, 500, 600, 700. -/
def c1Trace : List SDLEvent :=
  [freshKeydownAt 0, repeatKeydownAt 0, repeatKeydownAt 100, repeatKeydownAt 400,
   repeatKeydownAt 500, repeatKeydownAt 600, repeatKeydownAt 700]

/-! ## SDL2 to pygame event code translation -/

/-- sdl_to_pg: classify a native event as a pygame logical type.  The
    user band test and the band arithmetic are performed in unsigned
    32-bit arithmetic exactly as the C comparisons between the Uint32
    event type and the int-typed band boundaries do; the function
    returns a C int. -/
def sdl_to_pg (firstUser lastUser : Int) (e : SDLEvent) : Int :=
  if e.etype = SDL_WINDOWEVENT then
    if e.winEvent = SDL_WINDOWEVENT_ENTER ∨ e.winEvent = SDL_WINDOWEVENT_LEAVE ∨
       e.winEvent = SDL_WINDOWEVENT_FOCUS_GAINED ∨ e.winEvent = SDL_WINDOWEVENT_FOCUS_LOST ∨
       e.winEvent = SDL_WINDOWEVENT_MINIMIZED ∨ e.winEvent = SDL_WINDOWEVENT_RESTORED then
      PGE_ACTIVEEVENT
    else if e.winEvent = SDL_WINDOWEVENT_RESIZED then PGE_VIDEORESIZE
    else if e.winEvent = SDL_WINDOWEVENT_EXPOSED then PGE_VIDEOEXPOSE
    else PGE_OTHEREVENT
  else if e.etype = SDL_KEYDOWN then PGE_KEYDOWN
  else if e.etype = SDL_KEYUP then PGE_KEYUP
  else if e.etype = SDL_MOUSEMOTION then PGE_MOUSEMOTION
  else if e.etype = SDL_MOUSEBUTTONDOWN then PGE_MOUSEBUTTONDOWN
  else if e.etype = SDL_MOUSEBUTTONUP then PGE_MOUSEBUTTONUP
  else if e.etype = SDL_JOYAXISMOTION then PGE_JOYAXISMOTION
  else if e.etype = SDL_JOYBALLMOTION then PGE_JOYBALLMOTION
  else if e.etype = SDL_JOYHATMOTION then PGE_JOYHATMOTION
  else if e.etype = SDL_JOYBUTTONDOWN then PGE_JOYBUTTONDOWN
  else if e.etype = SDL_JOYBUTTONUP then PGE_JOYBUTTONUP
  else if e.etype = SDL_QUIT then PGE_QUIT
  else if e.etype = SDL_SYSWMEVENT then PGE_SYSWMEVENT
  else
    -- default: user events and others
    if u32 firstUser ≤ e.etype ∧ e.etype ≤ u32 lastUser then
      i32ofU32 ((u32sub e.etype (u32 firstUser) + u32 PGE_USEREVENT) % 4294967296)
    else PGE_OTHEREVENT

/-- pg_type_to_sdl: translate a pygame logical type to its native type
    code, PGE_NON_SDL_EVENT (-1) when there is none.  Plain int
    arithmetic in the user band arm, as in the C. -/
def pg_type_to_sdl (firstUser : Int) (pgeType : Int) : Int :=
  if pgeType = PGE_ACTIVEEVENT ∨ pgeType = PGE_VIDEOEXPOSE ∨ pgeType = PGE_VIDEORESIZE then
    (SDL_WINDOWEVENT : Int)
  else if pgeType = PGE_KEYDOWN then (SDL_KEYDOWN : Int)
  else if pgeType = PGE_KEYUP then (SDL_KEYUP : Int)
  else if pgeType = PGE_MOUSEMOTION then (SDL_MOUSEMOTION : Int)
  else if pgeType = PGE_MOUSEBUTTONDOWN then (SDL_MOUSEBUTTONDOWN : Int)
  else if pgeType = PGE_MOUSEBUTTONUP then (SDL_MOUSEBUTTONUP : Int)
  else if pgeType = PGE_JOYAXISMOTION then (SDL_JOYAXISMOTION : Int)
  else if pgeType = PGE_JOYBALLMOTION then (SDL_JOYBALLMOTION : Int)
  else if pgeType = PGE_JOYHATMOTION then (SDL_JOYHATMOTION : Int)
  else if pgeType = PGE_JOYBUTTONDOWN then (SDL_JOYBUTTONDOWN : Int)
  else if pgeType = PGE_JOYBUTTONUP then (SDL_JOYBUTTONUP : Int)
  else if pgeType = PGE_QUIT then (SDL_QUIT : Int)
  else if pgeType = PGE_SYSWMEVENT then (SDL_SYSWMEVENT : Int)
  else if PGE_USEREVENT ≤ pgeType ∧ pgeType < PGE_NUMEVENTS then
    pgeType - PGE_USEREVENT + firstUser
  else PGE_NON_SDL_EVENT

/-! ## Python-side values and event objects -/

/-- Heterogeneous attribute values stored in an event dict.  The uni
    constructor is the one-character unicode string built by unichr in
    key_to_unicode; str covers the other strings (the empty unicode
    string among them). -/
inductive PyVal where
  | int : Int → PyVal
  | float : Rat → PyVal
  | pair : Int → Int → PyVal
  | triple : Int → Int → Int → PyVal
  | str : String → PyVal
  | uni : Int → PyVal
  deriving Repr, DecidableEq

/-- An event dict: string keys to heterogeneous values, each key
    inserted at most once by the decoder, looked up by first match. -/
abbrev PyDict := List (String × PyVal)

/-- PyNumber_Check: ints and floats support the number protocol. -/
def PyVal.numberCheck : PyVal → Bool
  | .int _ => true
  | .float _ => true
  | _ => false

/-- PyNumber_AsSsize_t with a NULL error argument: integers are clamped
    to the Py_ssize_t range on overflow; objects without an index
    conversion make it return -1 (the error path). -/
def PyVal.asSsizeT : PyVal → Int
  | .int n => max (-9223372036854775808) (min 9223372036854775807 n)
  | _ => -1

/-- PyEventObject: a logical type tag (C int) and an attribute dict
    (possibly NULL). -/
structure PyEventObject where
  etype : Int
  dict : Option PyDict
  deriving Repr, DecidableEq

/-- get_sdl_event_code: recover the native code of an OTHEREVENT-typed
    event from the sdl2_type key of its dict, defaulting to
    last_user_event + 1 when the dict or the key is missing, the value
    is not a number, or the value is out of range. -/
def get_sdl_event_code (lastUser : Int) (e : PyEventObject) : Int :=
  let dflt := lastUser + 1
  match e.dict with
  | none => dflt
  | some d =>
    match d.lookup "sdl2_type" with
    | none => dflt
    | some v =>
      if ¬v.numberCheck then dflt
      else
        let c := v.asSsizeT
        if c > lastUser ∨ c < INT_MIN then dflt else c

/-- pg_to_sdl: translate a pygame event object to a native type code,
    dispatching OTHEREVENT to the stashed-code recovery. -/
def pg_to_sdl (firstUser lastUser : Int) (e : PyEventObject) : Int :=
  if e.etype = PGE_OTHEREVENT then get_sdl_event_code lastUser e
  else pg_type_to_sdl firstUser e.etype

/-! ## User object registry

An intrusive singly linked list of boxed payloads.  Nodes are modelled
by numeric handles issued by a counter (the C handle is the node
address); the list keeps (handle, payload) cells in list order. -/

structure Registry (α : Type) where
  nextId : Nat := 0
  nodes : List (Nat × α) := []
  deriving Repr, DecidableEq

/-- user_event_addobject: box the payload and push it on the front of
    the list; the returned handle identifies the new node. -/
def user_event_addobject (r : Registry α) (obj : α) : Nat × Registry α :=
  (r.nextId, { nextId := r.nextId + 1, nodes := (r.nextId, obj) :: r.nodes })

/-- Hunt loop of user_event_getobject: walk the tail of the list,
    unlink the node with the given handle if present. -/
def huntRemove (h : Nat) : List (Nat × α) → Option α × List (Nat × α)
  | [] => (none, [])
  | n :: rest =>
    if n.1 = h then (some n.2, rest)
    else
      let (o, rest') := huntRemove h rest
      (o, n :: rest')

/-- user_event_getobject: membership-checked removal.  The head of the
    list is handled first (the common case), otherwise the hunt loop
    searches the node; an unknown handle changes nothing and yields
    none. -/
def user_event_getobject (r : Registry α) (h : Nat) : Option α × Registry α :=
  match r.nodes with
  | [] => (none, r)
  | first :: rest =>
    if first.1 = h then (some first.2, { r with nodes := rest })
    else
      let (o, rest') := huntRemove h rest
      (o, { r with nodes := first :: rest' })

/-- user_event_cleanup: release every payload still boxed (returned as
    the release list, one entry per node) and empty the list. -/
def user_event_cleanup (r : Registry α) : List α × Registry α :=
  (r.nodes.map Prod.snd, { r with nodes := [] })

/-! ## Event record decoding (dict_from_event) -/

/-- ASCII fragment of Py_UNICODE_TOUPPER; no property below exercises
    codepoints beyond it. -/
def pyUnicodeToUpper (c : Int) : Int :=
  if 97 ≤ c ∧ c ≤ 122 then c - 32 else c

/-- KMOD_SHIFT = KMOD_LSHIFT | KMOD_RSHIFT. -/
def KMOD_SHIFT : Int := 3

/-- key_to_unicode: keycodes with bit 30 set and modifier combinations
    beyond shift give the empty string; otherwise the keycode (shifted:
    uppercased) becomes a one-character string.  The mask -4 is
    ~KMOD_SHIFT in C int arithmetic. -/
def key_to_unicode (sym : Int) (md : Int) : PyVal :=
  if Int.land sym 0x40000000 ≠ 0 then .str ""
  else if Int.land md (-4) ≠ 0 then .str ""
  else
    let c := if Int.land md KMOD_SHIFT ≠ 0 then pyUnicodeToUpper sym else sym
    .uni c

/-- Helper insobj: append a key/value pair to the dict under
    construction (each key is inserted at most once per decode). -/
def insobj (d : PyDict) (k : String) (v : PyVal) : PyDict := d ++ [(k, v)]

/-- Generic part of dict_from_event: the attribute dict built from the
    binary record when the user-object sentinel does not apply,
    dispatching on the translated logical type. -/
def dict_from_event_generic (firstUser lastUser : Int) (e : SDLEvent) : PyDict :=
  let pgeType := sdl_to_pg firstUser lastUser e
  let d : PyDict := []
  let d := insobj d "sdl2_type" (.int (e.etype : Int))
  let d := if e.etype = SDL_WINDOWEVENT then insobj d "window_id" (.int (e.windowID : Int)) else d
  let d :=
    if pgeType = PGE_ACTIVEEVENT then
      let gs : Int × Int :=
        if e.winEvent = SDL_WINDOWEVENT_ENTER then (1, PGE_APPFOCUSMOUSE)
        else if e.winEvent = SDL_WINDOWEVENT_LEAVE then (0, PGE_APPFOCUSMOUSE)
        else if e.winEvent = SDL_WINDOWEVENT_FOCUS_GAINED then (1, PGE_APPINPUTFOCUS)
        else if e.winEvent = SDL_WINDOWEVENT_FOCUS_LOST then (0, PGE_APPINPUTFOCUS)
        else if e.winEvent = SDL_WINDOWEVENT_MINIMIZED then (0, PGE_APPACTIVE)
        else (1, PGE_APPACTIVE)
      insobj (insobj d "gain" (.int gs.1)) "state" (.int gs.2)
    else if pgeType = PGE_KEYDOWN then
      let d := insobj d "unicode" (key_to_unicode e.keySym e.keyMod)
      insobj (insobj (insobj d "key" (.int e.keySym)) "mod" (.int e.keyMod))
        "scancode" (.int (e.keyScancode : Int))
    else if pgeType = PGE_KEYUP then
      insobj (insobj (insobj d "key" (.int e.keySym)) "mod" (.int e.keyMod))
        "scancode" (.int (e.keyScancode : Int))
    else if pgeType = PGE_MOUSEMOTION then
      let d := insobj d "pos" (.pair e.motionX e.motionY)
      let d := insobj d "rel" (.pair e.motionXrel e.motionYrel)
      -- SDL_BUTTON(n) is 1 << (n-1); each entry is the pressed flag
      insobj d "buttons"
        (.triple (if e.motionState &&& 1 ≠ 0 then 1 else 0)
                 (if e.motionState &&& 2 ≠ 0 then 1 else 0)
                 (if e.motionState &&& 4 ≠ 0 then 1 else 0))
    else if pgeType = PGE_MOUSEBUTTONDOWN ∨ pgeType = PGE_MOUSEBUTTONUP then
      insobj (insobj d "pos" (.pair e.buttonX e.buttonY))
        "button" (.int (e.buttonButton : Int))
    else if pgeType = PGE_JOYAXISMOTION then
      insobj (insobj (insobj d "joy" (.int (e.jaxisWhich : Int)))
        "axis" (.int (e.jaxisAxis : Int)))
        "value" (.float ((e.jaxisValue : Rat) / 32767))
    else if pgeType = PGE_JOYBALLMOTION then
      insobj (insobj (insobj d "joy" (.int (e.jballWhich : Int)))
        "ball" (.int (e.jballBall : Int)))
        "rel" (.pair e.jballXrel e.jballYrel)
    else if pgeType = PGE_JOYHATMOTION then
      let hy : Int :=
        if e.jhatValue &&& SDL_HAT_UP ≠ 0 then 1
        else if e.jhatValue &&& SDL_HAT_DOWN ≠ 0 then -1 else 0
      let hx : Int :=
        if e.jhatValue &&& SDL_HAT_RIGHT ≠ 0 then 1
        else if e.jhatValue &&& SDL_HAT_LEFT ≠ 0 then -1 else 0
      insobj (insobj (insobj d "joy" (.int (e.jhatWhich : Int)))
        "hat" (.int (e.jhatHat : Int)))
        "value" (.pair hx hy)
    else if pgeType = PGE_JOYBUTTONUP ∨ pgeType = PGE_JOYBUTTONDOWN then
      insobj (insobj d "joy" (.int (e.jbuttonWhich : Int)))
        "button" (.int (e.jbuttonButton : Int))
    else if pgeType = PGE_VIDEORESIZE then
      insobj (insobj (insobj d "size" (.pair e.winData1 e.winData2))
        "w" (.int e.winData1)) "h" (.int e.winData2)
    else d
    -- the SYSWMEVENT attributes are platform-conditional (WIN32 or
    -- X11 builds only) and empty otherwise; OTHEREVENT, VIDEOEXPOSE
    -- and QUIT have no type specific attributes
  let d :=
    if e.etype = u32 PGE_USEREVENT ∧ e.userCode = 0x1000 then
      insobj d "filename" (.str e.userData1Str)
    else d
  if u32 PGE_USEREVENT ≤ e.etype ∧ e.etype < u32 PGE_NUMEVENTS then
    insobj d "code" (.int (i32ofU32 e.userCode))
  else d

/-- dict_from_event: if the two user-object sentinels match, retrieve
    the attached dict from the registry by the embedded handle and
    return it verbatim; a missing registry entry and every other event
    fall through to the generic decoding. -/
def dict_from_event (firstUser lastUser : Int) (reg : Registry PyDict) (e : SDLEvent) :
    PyDict × Registry PyDict :=
  if e.userCode = USEROBJECT_CHECK1 ∧ e.userData1 = USEROBJECT_CHECK2 then
    match user_event_getobject reg e.userData2 with
    | (some d, reg') => (d, reg')
    | (none, reg') => (dict_from_event_generic firstUser lastUser e, reg')
  else (dict_from_event_generic firstUser lastUser e, reg)

/-- PyEvent_New: decode a native record into an event object (type tag
    from sdl_to_pg, dict from dict_from_event); with a NULL argument the
    no-op event with an empty dict. -/
def PyEvent_New (firstUser lastUser : Int) (reg : Registry PyDict) :
    Option SDLEvent → PyEventObject × Registry PyDict
  | some e =>
    let (d, reg') := dict_from_event firstUser lastUser reg e
    ({ etype := sdl_to_pg firstUser lastUser e, dict := some d }, reg')
  | none => ({ etype := PGE_NOEVENT, dict := some [] }, reg)

/-! ## Native queue, ignore flags, and the queue operations -/

/-- Cast to Uint8 (the (Uint8)val casts in front of SDL_EventState). -/
def u8 (i : Int) : Nat := (i % 256).toNat

/-- The native-layer state the queue operations touch: the per-type
    ignore-flag table of SDL_EventState, the event queue (front first)
    and the user object registry. -/
structure SDLState where
  ignored : List Nat := []
  queue : List SDLEvent := []
  reg : Registry PyDict := {}
  deriving Repr, DecidableEq

/-- SDL_EventState with SDL_IGNORE: mark a native code ignored. -/
def sdlEventStateIgnore (code : Nat) (st : SDLState) : SDLState :=
  if code ∈ st.ignored then st else { st with ignored := code :: st.ignored }

/-- SDL_EventState with SDL_ENABLE: clear the ignore mark. -/
def sdlEventStateEnable (code : Nat) (st : SDLState) : SDLState :=
  { st with ignored := st.ignored.filter (fun c => c ≠ code) }

/-- SDL_EventState with SDL_QUERY, compared against SDL_IGNORE. -/
def sdlEventStateQuery (code : Nat) (st : SDLState) : Bool :=
  code ∈ st.ignored

/-- SDL_PeepEvents with SDL_GETEVENT for one event of one native code:
    remove and return the first queued event bearing the code. -/
def takeFirst (c : Nat) : List SDLEvent → Option SDLEvent × List SDLEvent
  | [] => (none, [])
  | e :: rest =>
    if e.etype = c then (some e, rest)
    else
      let (o, rest') := takeFirst c rest
      (o, e :: rest')

/-- Logical types scanned by PG_PeepEvents: the loop runs type = 1 while
    type is not PGE_NUMEVENTS, so 1 through 31. -/
def peepScanTypes : List Nat := List.range' 1 31

/-- The guard of one PG_PeepEvents iteration: the mask bit of the type
    is set ((1 << type) & mask) and the translated code, read through
    the Uint32 variable sdl_type, is not the PGE_NON_SDL_EVENT
    sentinel. -/
def peepActive (firstUser : Int) (mask : Nat) (t : Nat) : Bool :=
  mask.testBit t && decide (u32 (pg_type_to_sdl firstUser (t : Int)) ≠ u32 PGE_NON_SDL_EVENT)

/-- Scan loop of PG_PeepEvents with SDL_GETEVENT and numevents = 1:
    walk the types in ascending order and remove the first queued event
    of the first scanned type that has one. -/
def peepGetScan (firstUser : Int) (mask : Nat) :
    List Nat → List SDLEvent → Option SDLEvent × List SDLEvent
  | [], q => (none, q)
  | t :: ts, q =>
    if peepActive firstUser mask t then
      match takeFirst (u32 (pg_type_to_sdl firstUser (t : Int))) q with
      | (some e, q') => (some e, q')
      | (none, _) => peepGetScan firstUser mask ts q
    else peepGetScan firstUser mask ts q

/-- PG_PeepEvents, SDL_GETEVENT action, one event. -/
def PG_PeepEventsGetOne (firstUser : Int) (mask : Nat) (q : List SDLEvent) :
    Option SDLEvent × List SDLEvent :=
  peepGetScan firstUser mask peepScanTypes q

/-- Scan loop of PG_PeepEvents with SDL_PEEKEVENT and numevents = 1:
    same scan, but the queue is left untouched. -/
def peepPeekScan (firstUser : Int) (mask : Nat) :
    List Nat → List SDLEvent → Option SDLEvent
  | [], _ => none
  | t :: ts, q =>
    if peepActive firstUser mask t then
      match q.find? (fun e => e.etype = u32 (pg_type_to_sdl firstUser (t : Int))) with
      | some e => some e
      | none => peepPeekScan firstUser mask ts q
    else peepPeekScan firstUser mask ts q

/-- Drain loop of event_get and event_clear, with fuel: each iteration
    asks PG_PeepEvents for one event under the mask until none is
    returned.  Every successful removal shortens the queue, so fuel
    equal to the queue length never runs out (proved below).  Returns
    the removed events in removal order and the remaining queue. -/
def eventGetAux (firstUser : Int) (mask : Nat) :
    Nat → List SDLEvent → List SDLEvent × List SDLEvent
  | 0, q => ([], q)
  | fuel + 1, q =>
    match PG_PeepEventsGetOne firstUser mask q with
    | (some e, q') =>
      let (out, rest) := eventGetAux firstUser mask fuel q'
      (e :: out, rest)
    | (none, _) => ([], q)

/-- The native records removed by one event_get call under a mask. -/
def eventGetRemoved (firstUser : Int) (mask : Nat) (q : List SDLEvent) : List SDLEvent :=
  (eventGetAux firstUser mask q.length q).1

/-- Decoding step of the event_get loop: append the decoded event,
    threading the registry. -/
def decodeFold (firstUser lastUser : Int)
    (acc : List PyEventObject × Registry PyDict) (e : SDLEvent) :
    List PyEventObject × Registry PyDict :=
  let (ev, reg') := PyEvent_New firstUser lastUser acc.2 (some e)
  (acc.1 ++ [ev], reg')

/-- event_get: drain every queued event matching the mask, decoding
    each in removal order. -/
def event_get (firstUser lastUser : Int) (mask : Nat) (st : SDLState) :
    List PyEventObject × SDLState :=
  let dr := eventGetAux firstUser mask st.queue.length st.queue
  let fl := dr.1.foldl (decodeFold firstUser lastUser) ([], st.reg)
  (fl.1, { st with queue := dr.2, reg := fl.2 })

/-- event_clear: the same drain loop with the results discarded. -/
def event_clear (firstUser : Int) (mask : Nat) (st : SDLState) : SDLState :=
  { st with queue := (eventGetAux firstUser mask st.queue.length st.queue).2 }

/-- event_peek with no argument: PG_PeepEvents peeks one event of any
    type into the stack buffer, and the buffer is decoded regardless of
    whether anything was found, so an empty queue decodes whatever the
    buffer held before the call. -/
def event_peek_noargs (firstUser lastUser : Int) (buf : SDLEvent) (st : SDLState) :
    PyEventObject × SDLState :=
  let found := peepPeekScan firstUser PGE_ALLEVENTS peepScanTypes st.queue
  let buf' := match found with
    | some e => e
    | none => buf
  let (ev, reg') := PyEvent_New firstUser lastUser st.reg (some buf')
  (ev, { st with reg := reg' })

/-- event_peek with a type filter: the result of PG_PeepEvents compared
    with 1, returned as a boolean; nothing is removed. -/
def event_peek_filtered (firstUser : Int) (mask : Nat) (st : SDLState) : Bool :=
  (peepPeekScan firstUser mask peepScanTypes st.queue).isSome

/-- PyEvent_FillUserEvent: box the event dict in the registry and build
    the native record carrying the two sentinels and the handle; the
    native type field receives the pygame logical type of the event
    object (event->type = e->type). -/
def PyEvent_FillUserEvent (e : PyEventObject) (reg : Registry PyDict) :
    SDLEvent × Registry PyDict :=
  let (h, reg') := user_event_addobject reg (e.dict.getD [])
  ({ etype := u32 e.etype, userCode := USEROBJECT_CHECK1,
     userData1 := USEROBJECT_CHECK2, userData2 := h }, reg')

/-- event_post: query the ignore flag of the translated native code; a
    blocked type returns None without touching anything; otherwise the
    filled record is pushed onto the queue (the queue-full failure of
    SDL_PushEvent is not modelled). -/
def event_post (firstUser lastUser : Int) (e : PyEventObject) (st : SDLState) :
    Option String × SDLState :=
  let sdlType := pg_to_sdl firstUser lastUser e
  if sdlEventStateQuery (u32 sdlType) st then (none, st)
  else
    let (ev, reg') := PyEvent_FillUserEvent e st.reg
    (none, { st with reg := reg', queue := st.queue ++ [ev] })

/-- CheckEventInRange. -/
def CheckEventInRange (evt : Int) : Bool :=
  decide (0 ≤ evt) && decide (evt < PGE_NUMEVENTS)

/-- set_blocked on a sequence argument: each value is range-checked and
    then its Uint8 cast is marked ignored; the first bad value raises,
    keeping the flags already set. -/
def set_blockedList : List Int → SDLState → Option String × SDLState
  | [], st => (none, st)
  | v :: rest, st =>
    if ¬CheckEventInRange v then (some "Invalid event in sequence", st)
    else set_blockedList rest (sdlEventStateIgnore (u8 v) st)

/-- set_allowed on a sequence argument (the dual of set_blocked). -/
def set_allowedList : List Int → SDLState → Option String × SDLState
  | [], st => (none, st)
  | v :: rest, st =>
    if ¬CheckEventInRange v then (some "Invalid event in sequence", st)
    else set_allowedList rest (sdlEventStateEnable (u8 v) st)

/-- get_blocked on a sequence argument: ORs the ignore flags of the
    Uint8 casts of the given types. -/
def get_blockedAux (acc : Bool) : List Int → SDLState → Except String Bool
  | [], _ => .ok acc
  | v :: rest, st =>
    if ¬CheckEventInRange v then .error "Invalid event in sequence"
    else get_blockedAux (acc || sdlEventStateQuery (u8 v) st) rest st

/-- get_blocked entry point for a list argument. -/
def get_blockedList (l : List Int) (st : SDLState) : Except String Bool :=
  get_blockedAux false l st

/-! ## Blocking wait (Py_WaitEvent, pygame_wait) -/

/-- Py_WaitEvent over a script of native SDL_WaitEvent outcomes: some e
    is a call that returns nonzero having filled the buffer with e,
    none is a call that returns 0 (error), leaving the buffer alone.
    The C loop runs its body only while SDL_WaitEvent returns 0, so a
    successful native call exits the loop at once with rcode still -1;
    on an error outcome the body applies the repeat filter to the
    (unchanged) buffer and either continues the loop or breaks with
    rcode 0.  Returns none when the script is exhausted with the call
    still blocked, otherwise (rcode, buffer, written-back repeat
    state). -/
def Py_WaitEvent (r : KeyRepeat) (buf : SDLEvent) :
    List (Option SDLEvent) → Option (Int × SDLEvent × KeyRepeat)
  | [] => none
  | outcome :: rest =>
    match outcome with
    | some e => some (-1, e, r)
    | none =>
      let (cont, r') := repeatFilterStep r buf
      if cont then Py_WaitEvent r' buf rest
      else some (0, buf, r')

/-- pygame_wait: raises SDLError exactly when Py_WaitEvent returns 0,
    otherwise decodes the buffer. -/
def pygame_wait (firstUser lastUser : Int) (reg : Registry PyDict) (r : KeyRepeat)
    (buf : SDLEvent) (script : List (Option SDLEvent)) :
    Option (Except String PyEventObject × Registry PyDict × KeyRepeat) :=
  match Py_WaitEvent r buf script with
  | none => none
  | some (status, e, r') =>
    if status = 0 then some (.error "SDL error", reg, r')
    else
      let (ev, reg') := PyEvent_New firstUser lastUser reg (some e)
      some (.ok ev, reg', r')

/-! ## Module initialization: the user-band computation -/

/-- User-band computation of MODINIT_DEFINE(event): SDL_RegisterEvents
    is the external allocator, supplied as the function from requested
    count to first allocated code (-1, the (Uint32)-1 failure value read
    back through the int-typed enum, on failure).  The guard tests
    first_user_event against PGE_NON_SDL_EVENT with "not equal". -/
def modinitUserBand (registerEvents : Int → Int) (firstUser lastUser : Int) : Int × Int :=
  if firstUser ≠ PGE_NON_SDL_EVENT then
    let numevents : Int := PGE_NUMEVENTS - PGE_USEREVENT + 1
    let fu' := registerEvents numevents
    if fu' ≠ PGE_NON_SDL_EVENT then (fu', fu' + numevents - 1)
    else (fu', lastUser)
  else (firstUser, lastUser)

/-! ## Helper views for theorem statements -/

/-- Observable outcome of a pygame_wait run: none when the call is
    still blocked, some none when it raised, some (some t) when it
    returned an event of logical type t. -/
def waitOutcomeKind :
    Option (Except String PyEventObject × Registry PyDict × KeyRepeat) → Option (Option Int)
  | none => none
  | some (.error _, _, _) => some none
  | some (.ok e, _, _) => some (some e.etype)

/-- Repeat state right after a fresh keydown at timestamp 0 with the
    configuration delay 500, interval 100. -/
def c2Rep : KeyRepeat := { delay := 500, interval := 100, firsttime := 1, timestamp := 0 }

/-! ## Claims -/

/-- Claim C1.  The claim asserts that repeat suppression during poll
    and wait follows the threshold algorithm of the spec: on the trace
    of a fresh keydown at 0 followed by repeat keydowns at timestamps
    0, 100, 400, 500, 600, 700 under delay 500 and interval 100, the
    algorithm prescribes the outcome list
    [allow, suppress, suppress, suppress, allow, allow, allow].
    The code disagrees: its first-repeat comparison subtracts the event
    timestamp from the saved timestamp (operands reversed, evaluated in
    unsigned 32-bit arithmetic), so every repeat with a timestamp
    different from the saved one passes the delay test at once and the
    code produces [allow, suppress, allow, allow, allow, allow, allow],
    letting the repeats at 100 and 400 through. -/
theorem claim_C1_keyrepeat_bug :
    Py_EnableKeyRepeat 500 100
      = some { delay := 500, interval := 100, firsttime := 0, timestamp := 0 } ∧
    repeatScan { delay := 500, interval := 100, firsttime := 0, timestamp := 0 } c1Trace
      = [true, false, true, true, true, true, true] ∧
    specRepeatScan { delay := 500, interval := 100, firsttime := 0, timestamp := 0 } c1Trace
      = [true, false, false, false, true, true, true] ∧
    repeatScan { delay := 500, interval := 100, firsttime := 0, timestamp := 0 } c1Trace
      ≠ specRepeatScan { delay := 500, interval := 100, firsttime := 0, timestamp := 0 } c1Trace := by
  decide

/-- Claim C2.  The claim asserts that wait applies repeat suppression
    to events obtained from the native blocking wait and raises exactly
    when the native wait reports an error.  The code inverts the native
    success convention (its loop runs only while SDL_WaitEvent returns
    0), so: (a) a successful native wait returns its event undecoded by
    the filter even when the threshold algorithm says to suppress it,
    with the repeat state left untouched; (b) after a native error the
    filter runs on the stale buffer, and a suppressible stale buffer
    makes the loop swallow the error and wait again, here returning the
    next event instead of raising; (c) whether an error raises at all
    depends on the stale buffer contents. -/
theorem claim_C2_wait_bug :
    (specRepeatStep c2Rep (repeatKeydownAt 100)).1 = true ∧
    waitOutcomeKind (pygame_wait (-1) (-1) {} c2Rep {} [some (repeatKeydownAt 100)])
      = some (some PGE_KEYDOWN) ∧
    (pygame_wait (-1) (-1) {} c2Rep {} [some (repeatKeydownAt 100)]).map
        (fun r => r.2.2) = some c2Rep ∧
    waitOutcomeKind
        (pygame_wait (-1) (-1) {} c2Rep (repeatKeydownAt 0)
          [none, some { etype := SDL_QUIT }])
      = some (some PGE_QUIT) ∧
    waitOutcomeKind (pygame_wait (-1) (-1) {} c2Rep {} [none]) = some none := by
  decide

/-- Claim C3.  The claim asserts that module initialization computes
    the user-event band from the native custom-event budget and that
    the band then round-trips.  The init guard is inverted: it calls
    SDL_RegisterEvents only when first_user_event already differs from
    PGE_NON_SDL_EVENT, while the static initial value is exactly
    PGE_NON_SDL_EVENT, so whatever the native allocator would return,
    the band is never computed; with the band left unregistered, the
    round trip fails already at user offset 1. -/
theorem claim_C3_userband_bug :
    (∀ registerEvents : Int → Int,
      modinitUserBand registerEvents PGE_NON_SDL_EVENT PGE_NON_SDL_EVENT
        = (PGE_NON_SDL_EVENT, PGE_NON_SDL_EVENT)) ∧
    sdl_to_pg PGE_NON_SDL_EVENT PGE_NON_SDL_EVENT
        { etype := u32 (pg_type_to_sdl PGE_NON_SDL_EVENT (PGE_USEREVENT + 1)) }
      = PGE_OTHEREVENT ∧
    PGE_OTHEREVENT ≠ PGE_USEREVENT + 1 := by
  refine ⟨fun registerEvents => ?_, by decide, by decide⟩
  simp [modinitUserBand]

/-- State after set_blocked([PGE_KEYDOWN]) from a fresh native state. -/
def c4St1 : SDLState := (set_blockedList [PGE_KEYDOWN] {}).2

/-- Result of posting a KEYDOWN event object after the block, under a
    registered user band (first 32768, last 32776). -/
def c4Post : Option String × SDLState :=
  event_post 32768 32776 { etype := PGE_KEYDOWN, dict := some [] } c4St1

/-- Claim C4.  The claim asserts success-with-no-effect: after
    set_blocked([T]), posting an event of type T raises nothing and
    pushes nothing, and get_blocked([T]) is true.  The code disagrees
    on the no-effect part: set_blocked passes the raw logical value
    (cast to Uint8) to SDL_EventState, while event_post queries the
    ignore flag of the translated native code, so for T = PGE_KEYDOWN
    the flag of code 2 is set but the flag of code 768 is queried; the
    post therefore raises nothing but pushes a record (bearing the raw
    logical type as its native type) and permanently boxes the payload
    dict in the registry.  The pushed record is indeed invisible to a
    subsequent get([T]), yet only because its native type matches no
    scanned translation, and get_blocked([T]) does return true. -/
theorem claim_C4_block_bug :
    (set_blockedList [PGE_KEYDOWN] {}).1 = none ∧
    c4St1.ignored = [2] ∧
    c4Post.1 = none ∧
    (c4Post.2.queue.map SDLEvent.etype) = [2] ∧
    c4Post.2.reg.nodes.length = 1 ∧
    (get_blockedList [PGE_KEYDOWN] c4Post.2).toOption = some true ∧
    (event_get 32768 32776 4 c4Post.2).1 = [] ∧
    (event_get 32768 32776 4 c4Post.2).2.queue.length = 1 := by
  decide

/-- Claim C8.  The claim asserts that peek with no filter returns the
    no-op event (type PGE_NOEVENT, empty dict) when no event is
    pending, and with a filter a boolean, removing nothing.  The
    filtered branch behaves as claimed, but for the no-filter branch
    the code hands the stack buffer to PyEvent_New without checking
    whether PG_PeepEvents found anything, so on an empty queue the
    uninitialized buffer is decoded: a leftover SDL_QUIT record yields
    an event of type PGE_QUIT with a nonempty dict, not the no-op event
    that PyEvent_New(NULL) (as used by poll) would produce. -/
theorem claim_C8_peek_bug :
    (event_peek_noargs (-1) (-1) { etype := SDL_QUIT } {}).1.etype = PGE_QUIT ∧
    PGE_QUIT ≠ PGE_NOEVENT ∧
    (event_peek_noargs (-1) (-1) { etype := SDL_QUIT } {}).1.dict ≠ some [] ∧
    (PyEvent_New (-1) (-1) {} none).1 = { etype := PGE_NOEVENT, dict := some [] } ∧
    event_peek_filtered (-1) 4 { queue := [{ etype := SDL_KEYDOWN }] } = true ∧
    event_peek_filtered (-1) 4 {} = false := by
  decide

/-- Hunting for a handle that occurs nowhere in the list finds nothing
    and rebuilds the list unchanged. -/
theorem huntRemove_not_mem {α : Type} (h : Nat) (l : List (Nat × α))
    (hh : h ∉ l.map Prod.fst) : huntRemove h l = (none, l) := by
  induction l with
  | nil => rfl
  | cons n rest ih =>
    simp only [List.map_cons, List.mem_cons] at hh
    push_neg at hh
    simp [huntRemove, Ne.symm hh.1, ih hh.2]

/-- Claim C6.  Registry correctness: retrieving the handle returned by
    registering x yields x and removes the fresh node, restoring the
    node list; retrieving a handle that is in no node leaves the
    registry entirely unchanged and yields none; teardown releases
    exactly the list of still-boxed payloads (each once, in list order)
    and empties the list. -/
theorem claim_C6_registry (α : Type) (r : Registry α) (x : α) (h : Nat)
    (hh : h ∉ r.nodes.map Prod.fst) :
    user_event_getobject (user_event_addobject r x).2 (user_event_addobject r x).1
      = (some x, { r with nextId := r.nextId + 1 }) ∧
    user_event_getobject r h = (none, r) ∧
    (user_event_cleanup r).1 = r.nodes.map Prod.snd ∧
    (user_event_cleanup r).2.nodes = [] := by
  obtain ⟨nid, nodes⟩ := r
  refine ⟨?_, ?_, rfl, rfl⟩
  · simp [user_event_addobject, user_event_getobject]
  · cases nodes with
    | nil => simp [user_event_getobject]
    | cons first rest =>
      simp only [List.map_cons, List.mem_cons] at hh
      push_neg at hh
      simp [user_event_getobject, Ne.symm hh.1, huntRemove_not_mem h rest hh.2]

/-- Witness for claim C6 at a concrete registry. -/
theorem claim_C6_registry_witness :
    (7 ∉ (({ nextId := 2, nodes := [(1, 10), (0, 20)] } : Registry Nat).nodes.map Prod.fst)) ∧
    (user_event_getobject
        (user_event_addobject ({ nextId := 2, nodes := [(1, 10), (0, 20)] } : Registry Nat) 5).2
        (user_event_addobject ({ nextId := 2, nodes := [(1, 10), (0, 20)] } : Registry Nat) 5).1
      = (some 5, { nextId := 3, nodes := [(1, 10), (0, 20)] }) ∧
     user_event_getobject ({ nextId := 2, nodes := [(1, 10), (0, 20)] } : Registry Nat) 7
      = (none, { nextId := 2, nodes := [(1, 10), (0, 20)] }) ∧
     (user_event_cleanup ({ nextId := 2, nodes := [(1, 10), (0, 20)] } : Registry Nat)).1
      = [10, 20] ∧
     (user_event_cleanup ({ nextId := 2, nodes := [(1, 10), (0, 20)] } : Registry Nat)).2.nodes
      = []) :=
  ⟨by decide, claim_C6_registry Nat { nextId := 2, nodes := [(1, 10), (0, 20)] } 5 7 (by decide)⟩

/-- Claim C7.  Posting an event of the OTHEREVENT fallback type makes
    pg_to_sdl recover the native code from the sdl2_type key of the
    dict: when the key is present with an integer value in range (at
    least INT_MIN, at most last_user_event), the translation yields
    exactly that value; and whenever the dict or the key is absent,
    the value is not a number, or the held value is out of range
    (above last_user_event or below INT_MIN), it yields
    last_user_event + 1, the synthetic code one past the last user
    type; no error is possible (the function is total).  The range
    hypotheses on last_user_event record the values SDL_RegisterEvents
    can actually allocate, under which the int arithmetic of the C
    cannot wrap and the Py_ssize_t clamp is the identity on in-range
    codes. -/
theorem claim_C7_other_code (firstUser lastUser : Int) (e : PyEventObject)
    (hlo : 0 ≤ lastUser) (hhi : lastUser ≤ 65535)
    (ht : e.etype = PGE_OTHEREVENT) :
    (∀ d c, e.dict = some d →
        d.lookup "sdl2_type" = some (.int c) →
        INT_MIN ≤ c → c ≤ lastUser →
        pg_to_sdl firstUser lastUser e = c) ∧
    ((e.dict = none ∨
        (∃ d, e.dict = some d ∧ d.lookup "sdl2_type" = none) ∨
        (∃ d v, e.dict = some d ∧ d.lookup "sdl2_type" = some v ∧ v.numberCheck = false) ∨
        (∃ d v, e.dict = some d ∧ d.lookup "sdl2_type" = some v ∧
          (v.asSsizeT > lastUser ∨ v.asSsizeT < INT_MIN))) →
      pg_to_sdl firstUser lastUser e = lastUser + 1) := by
  have hd : pg_to_sdl firstUser lastUser e = get_sdl_event_code lastUser e := by
    simp [pg_to_sdl, ht]
  constructor
  · intro d c hdd hk hcl hcu
    rw [hd]
    simp only [INT_MIN] at hcl
    have h1 : min 9223372036854775807 c = c := min_eq_right (by omega)
    have h2 : max (-9223372036854775808) c = c := max_eq_right (by omega)
    have hns : (PyVal.int c).numberCheck = true := rfl
    have hcla : (PyVal.int c).asSsizeT = c := by
      simp only [PyVal.asSsizeT, h1, h2]
    simp only [get_sdl_event_code, hdd, hk, hns, hcla, not_true, if_false, Bool.not_true,
      Bool.false_eq_true, if_neg]
    rw [if_neg (by push_neg; refine ⟨hcu, by simp only [INT_MIN]; omega⟩)]
  · intro hbad
    rw [hd]
    rcases hbad with hn | ⟨d, hdd, hk⟩ | ⟨d, v, hdd, hk, hnum⟩ | ⟨d, v, hdd, hk, hrange⟩
    · simp [get_sdl_event_code, hn]
    · simp [get_sdl_event_code, hdd, hk]
    · simp [get_sdl_event_code, hdd, hk, hnum]
    · by_cases hnum : v.numberCheck
      · simp [get_sdl_event_code, hdd, hk, hnum, if_pos hrange]
      · simp [get_sdl_event_code, hdd, hk, hnum]

/-- Witness for claim C7: an OTHEREVENT object whose sdl2_type key
    holds the in-range integer 515 has that code recovered, and one
    whose key holds a string (not a number) falls back to
    last_user_event + 1. -/
theorem claim_C7_other_code_witness :
    ((0 : Int) ≤ 32776) ∧ ((32776 : Int) ≤ 65535) ∧
    (({ etype := PGE_OTHEREVENT, dict := some [("sdl2_type", .int 515)] } : PyEventObject).etype
      = PGE_OTHEREVENT) ∧
    (INT_MIN ≤ (515 : Int)) ∧ ((515 : Int) ≤ 32776) ∧
    pg_to_sdl 32768 32776 { etype := PGE_OTHEREVENT, dict := some [("sdl2_type", .int 515)] }
      = 515 ∧
    pg_to_sdl 32768 32776 { etype := PGE_OTHEREVENT, dict := some [("sdl2_type", .str "x")] }
      = 32777 :=
  ⟨by decide, by decide, by decide, by decide, by decide,
   (claim_C7_other_code 32768 32776
     { etype := PGE_OTHEREVENT, dict := some [("sdl2_type", .int 515)] }
     (by decide) (by decide) (by decide)).1
     [("sdl2_type", .int 515)] 515 rfl (by decide) (by decide) (by decide),
   (claim_C7_other_code 32768 32776
     { etype := PGE_OTHEREVENT, dict := some [("sdl2_type", .str "x")] }
     (by decide) (by decide) (by decide)).2
     (Or.inr (Or.inr (Or.inl ⟨[("sdl2_type", .str "x")], .str "x", rfl, by decide, by decide⟩)))⟩

/-- The logical types whose native code determines them alone: key
    down/up, mouse motion and buttons, the four joystick kinds, quit
    and system-message. -/
def c5DirectTypes : List Int :=
  [PGE_KEYDOWN, PGE_KEYUP, PGE_MOUSEMOTION, PGE_MOUSEBUTTONDOWN, PGE_MOUSEBUTTONUP,
   PGE_JOYAXISMOTION, PGE_JOYBALLMOTION, PGE_JOYHATMOTION, PGE_JOYBUTTONDOWN,
   PGE_JOYBUTTONUP, PGE_QUIT, PGE_SYSWMEVENT]

/-- Claim C5 counterexample.  The claim quantifies over every native
    event bearing the translated code; the three window-derived types
    share the single code SDL_WINDOWEVENT, so an event bearing the
    native code of PGE_VIDEORESIZE whose sub-code is ENTER classifies
    back to PGE_ACTIVEEVENT, not PGE_VIDEORESIZE. -/
theorem claim_C5_roundtrip_counterexample :
    pg_type_to_sdl 32768 PGE_VIDEORESIZE = (SDL_WINDOWEVENT : Int) ∧
    ({ etype := SDL_WINDOWEVENT, winEvent := SDL_WINDOWEVENT_ENTER } : SDLEvent).etype
      = u32 (pg_type_to_sdl 32768 PGE_VIDEORESIZE) ∧
    sdl_to_pg 32768 32776 { etype := SDL_WINDOWEVENT, winEvent := SDL_WINDOWEVENT_ENTER }
      = PGE_ACTIVEEVENT ∧
    PGE_ACTIVEEVENT ≠ PGE_VIDEORESIZE := by
  decide

/-- Claim C5, amended.  For the twelve directly mapped built-in types,
    every native event bearing the translated code classifies back to
    the same logical type, for any user-band configuration.  The three
    window-derived types share the code SDL_WINDOWEVENT; an event
    bearing it classifies back to active-state, resize or expose
    according to its window sub-code (one of the six active sub-codes,
    RESIZED, EXPOSED respectively). -/
theorem claim_C5_roundtrip_amended (firstUser lastUser : Int) (e : SDLEvent) :
    (∀ T ∈ c5DirectTypes,
      e.etype = u32 (pg_type_to_sdl firstUser T) → sdl_to_pg firstUser lastUser e = T) ∧
    (e.etype = u32 (pg_type_to_sdl firstUser PGE_ACTIVEEVENT) →
      ((e.winEvent = SDL_WINDOWEVENT_ENTER ∨ e.winEvent = SDL_WINDOWEVENT_LEAVE ∨
        e.winEvent = SDL_WINDOWEVENT_FOCUS_GAINED ∨ e.winEvent = SDL_WINDOWEVENT_FOCUS_LOST ∨
        e.winEvent = SDL_WINDOWEVENT_MINIMIZED ∨ e.winEvent = SDL_WINDOWEVENT_RESTORED) →
        sdl_to_pg firstUser lastUser e = PGE_ACTIVEEVENT) ∧
      (e.winEvent = SDL_WINDOWEVENT_RESIZED →
        sdl_to_pg firstUser lastUser e = PGE_VIDEORESIZE) ∧
      (e.winEvent = SDL_WINDOWEVENT_EXPOSED →
        sdl_to_pg firstUser lastUser e = PGE_VIDEOEXPOSE)) := by
  constructor
  · intro T hT h
    fin_cases hT <;>
      simp_all [sdl_to_pg, pg_type_to_sdl, u32, PGE_ACTIVEEVENT, PGE_KEYDOWN, PGE_KEYUP,
        PGE_MOUSEMOTION, PGE_MOUSEBUTTONDOWN, PGE_MOUSEBUTTONUP, PGE_JOYAXISMOTION,
        PGE_JOYBALLMOTION, PGE_JOYHATMOTION, PGE_JOYBUTTONDOWN, PGE_JOYBUTTONUP,
        PGE_QUIT, PGE_SYSWMEVENT, PGE_VIDEORESIZE, PGE_VIDEOEXPOSE, PGE_USEREVENT,
        PGE_NUMEVENTS, SDL_WINDOWEVENT, SDL_KEYDOWN, SDL_KEYUP, SDL_MOUSEMOTION,
        SDL_MOUSEBUTTONDOWN, SDL_MOUSEBUTTONUP, SDL_JOYAXISMOTION, SDL_JOYBALLMOTION,
        SDL_JOYHATMOTION, SDL_JOYBUTTONDOWN, SDL_JOYBUTTONUP, SDL_QUIT, SDL_SYSWMEVENT]
  · intro h
    have he : e.etype = SDL_WINDOWEVENT := by
      simp_all [pg_type_to_sdl, u32, PGE_ACTIVEEVENT, PGE_VIDEOEXPOSE, PGE_VIDEORESIZE,
        SDL_WINDOWEVENT]
    refine ⟨?_, ?_, ?_⟩
    · rintro (hw | hw | hw | hw | hw | hw) <;>
        simp [sdl_to_pg, he, hw, SDL_WINDOWEVENT, SDL_WINDOWEVENT_ENTER,
          SDL_WINDOWEVENT_LEAVE, SDL_WINDOWEVENT_FOCUS_GAINED, SDL_WINDOWEVENT_FOCUS_LOST,
          SDL_WINDOWEVENT_MINIMIZED, SDL_WINDOWEVENT_RESTORED, SDL_WINDOWEVENT_RESIZED,
          SDL_WINDOWEVENT_EXPOSED]
    · intro hw
      simp [sdl_to_pg, he, hw, SDL_WINDOWEVENT, SDL_WINDOWEVENT_ENTER,
        SDL_WINDOWEVENT_LEAVE, SDL_WINDOWEVENT_FOCUS_GAINED, SDL_WINDOWEVENT_FOCUS_LOST,
        SDL_WINDOWEVENT_MINIMIZED, SDL_WINDOWEVENT_RESTORED, SDL_WINDOWEVENT_RESIZED,
        SDL_WINDOWEVENT_EXPOSED]
    · intro hw
      simp [sdl_to_pg, he, hw, SDL_WINDOWEVENT, SDL_WINDOWEVENT_ENTER,
        SDL_WINDOWEVENT_LEAVE, SDL_WINDOWEVENT_FOCUS_GAINED, SDL_WINDOWEVENT_FOCUS_LOST,
        SDL_WINDOWEVENT_MINIMIZED, SDL_WINDOWEVENT_RESTORED, SDL_WINDOWEVENT_RESIZED,
        SDL_WINDOWEVENT_EXPOSED]

/-- Witness for the amended claim C5: a KEYDOWN-coded event round
    trips, and a WINDOWEVENT record with the ENTER sub-code classifies
    to active-state. -/
theorem claim_C5_roundtrip_amended_witness :
    (PGE_KEYDOWN ∈ c5DirectTypes ∧
      ({ etype := 768 } : SDLEvent).etype = u32 (pg_type_to_sdl 32768 PGE_KEYDOWN) ∧
      sdl_to_pg 32768 32776 { etype := 768 } = PGE_KEYDOWN) ∧
    (({ etype := 512, winEvent := 10 } : SDLEvent).etype
        = u32 (pg_type_to_sdl 32768 PGE_ACTIVEEVENT) ∧
      sdl_to_pg 32768 32776 { etype := 512, winEvent := 10 } = PGE_ACTIVEEVENT) :=
  ⟨⟨by decide, by decide,
    (claim_C5_roundtrip_amended 32768 32776 { etype := 768 }).1 PGE_KEYDOWN
      (by decide) (by decide)⟩,
   ⟨by decide,
    ((claim_C5_roundtrip_amended 32768 32776 { etype := 512, winEvent := 10 }).2
      (by decide)).1 (by decide)⟩⟩

/-- Claim C9 counterexample.  The decoder divides the signed 16-bit
    axis value by 32767, whose magnitude is not the full negative
    range: at the native value -32768 the stored float is
    -32768/32767, strictly below -1, outside the claimed interval. -/
theorem claim_C9_axis_counterexample :
    (dict_from_event_generic 32768 32776
        { etype := SDL_JOYAXISMOTION, jaxisValue := -32768 }).lookup "value"
      = some (.float ((-32768 : Rat) / 32767)) ∧
    ¬ ((-1 : Rat) ≤ (-32768 : Rat) / 32767) := by
  constructor
  · simp [dict_from_event_generic, sdl_to_pg, insobj, List.lookup, u32,
      SDL_WINDOWEVENT, SDL_KEYDOWN, SDL_KEYUP, SDL_MOUSEMOTION, SDL_MOUSEBUTTONDOWN,
      SDL_MOUSEBUTTONUP, SDL_JOYAXISMOTION, PGE_ACTIVEEVENT, PGE_KEYDOWN, PGE_KEYUP,
      PGE_MOUSEMOTION, PGE_MOUSEBUTTONDOWN, PGE_MOUSEBUTTONUP, PGE_JOYAXISMOTION,
      PGE_USEREVENT, PGE_NUMEVENTS]
  · norm_num

/-- Claim C9, amended.  For every native axis value in the signed
    16-bit range, the decoded value attribute is exactly the axis value
    divided by 32767; it never exceeds 1, and it is at least -1
    whenever the axis value is at least -32767 (all values except the
    single extreme -32768, where it is -32768/32767 < -1). -/
theorem claim_C9_axis_amended (firstUser lastUser : Int) (e : SDLEvent)
    (he : e.etype = SDL_JOYAXISMOTION)
    (hlo : -32768 ≤ e.jaxisValue) (hhi : e.jaxisValue ≤ 32767) :
    (dict_from_event_generic firstUser lastUser e).lookup "value"
      = some (.float ((e.jaxisValue : Rat) / 32767)) ∧
    (e.jaxisValue : Rat) / 32767 ≤ 1 ∧
    (-32767 ≤ e.jaxisValue → (-1 : Rat) ≤ (e.jaxisValue : Rat) / 32767) := by
  refine ⟨?_, ?_, ?_⟩
  · have hp : sdl_to_pg firstUser lastUser e = PGE_JOYAXISMOTION := by
      simp [sdl_to_pg, he, SDL_WINDOWEVENT, SDL_KEYDOWN, SDL_KEYUP, SDL_MOUSEMOTION,
        SDL_MOUSEBUTTONDOWN, SDL_MOUSEBUTTONUP, SDL_JOYAXISMOTION]
    simp [dict_from_event_generic, hp, he, insobj, PGE_ACTIVEEVENT, PGE_KEYDOWN,
      PGE_KEYUP, PGE_MOUSEMOTION, PGE_MOUSEBUTTONDOWN, PGE_MOUSEBUTTONUP,
      PGE_JOYAXISMOTION, PGE_USEREVENT, PGE_NUMEVENTS, u32, SDL_JOYAXISMOTION,
      SDL_WINDOWEVENT, List.lookup]
  · rw [div_le_one (by norm_num : (0 : Rat) < 32767)]
    exact_mod_cast hhi
  · intro hlo2
    rw [le_div_iff₀ (by norm_num : (0 : Rat) < 32767)]
    have : ((-32767 : Int) : Rat) ≤ (e.jaxisValue : Rat) := by exact_mod_cast hlo2
    push_cast at this ⊢
    linarith

/-- Witness for the amended claim C9 at the axis value -100. -/
theorem claim_C9_axis_amended_witness :
    (({ etype := SDL_JOYAXISMOTION, jaxisValue := -100 } : SDLEvent).etype
      = SDL_JOYAXISMOTION) ∧
    ((-32768 : Int) ≤ -100) ∧ ((-100 : Int) ≤ 32767) ∧
    ((dict_from_event_generic 32768 32776
        { etype := SDL_JOYAXISMOTION, jaxisValue := -100 }).lookup "value"
      = some (.float ((-100 : Rat) / 32767)) ∧
     (-100 : Rat) / 32767 ≤ 1 ∧
     ((-32767 : Int) ≤ -100 → (-1 : Rat) ≤ (-100 : Rat) / 32767)) :=
  ⟨by decide, by decide, by decide,
   claim_C9_axis_amended 32768 32776 { etype := SDL_JOYAXISMOTION, jaxisValue := -100 }
     (by decide) (by decide) (by decide)⟩

/-! ## Claim C10: drain order of get and clear -/

/-- Whether the PG_PeepEvents scan can retrieve event e at logical type
    t: the type is scanned under the mask and its translated native
    code matches the native type of the event. -/
def scanMatch (firstUser : Int) (mask : Nat) (e : SDLEvent) (t : Nat) : Bool :=
  peepActive firstUser mask t && decide (e.etype = u32 (pg_type_to_sdl firstUser (t : Int)))

/-- The scan slot of an event under a mask: the least scanned logical
    type whose translated native code matches the event, none when no
    scanned type matches. -/
def scanMin (firstUser : Int) (mask : Nat) (e : SDLEvent) : Option Nat :=
  peepScanTypes.find? (scanMatch firstUser mask e)

/-- Declarative form of the drain order of event_get: all events of
    scan slot 1 in arrival order, then all of slot 2, and so on;
    events with no scan slot are never removed. -/
def groupedDrain (firstUser : Int) (mask : Nat) (q : List SDLEvent) : List SDLEvent :=
  peepScanTypes.flatMap (fun t => q.filter (fun e => scanMin firstUser mask e = some t))

/-- Specification of takeFirst: either no queued event bears the code
    and the queue is returned unchanged, or the queue splits around the
    first event bearing it. -/
theorem takeFirst_spec (c : Nat) (q : List SDLEvent) :
    (takeFirst c q = (none, q) ∧ ∀ e ∈ q, e.etype ≠ c) ∨
    (∃ A e B, q = A ++ e :: B ∧ e.etype = c ∧ (∀ x ∈ A, x.etype ≠ c) ∧
      takeFirst c q = (some e, A ++ B)) := by
  induction q with
  | nil => exact Or.inl ⟨rfl, by simp⟩
  | cons x rest ih =>
    by_cases hc : x.etype = c
    · exact Or.inr ⟨[], x, rest, by simp, hc, by simp, by simp [takeFirst, hc]⟩
    · rcases ih with ⟨hnone, _hall⟩ | ⟨A, e, B, hq, he, hA, htake⟩
      · refine Or.inl ⟨by simp [takeFirst, hc, hnone], ?_⟩
        intro e he
        rcases List.mem_cons.mp he with rfl | hmem
        · exact hc
        · exact _hall e hmem
      · refine Or.inr ⟨x :: A, e, B, by simp [hq], he, ?_, by simp [takeFirst, hc, htake]⟩
        intro y hy
        rcases List.mem_cons.mp hy with rfl | hmem
        · exact hc
        · exact hA y hmem

/-- Specification of the PG_PeepEvents removal scan over a type list:
    either nothing is retrievable (no scanned type has a queued event
    of its code) and the queue is unchanged, or the type list splits at
    the first scanned type with a queued event of its code and the
    queue splits at the first such event. -/
theorem peepGetScan_spec (firstUser : Int) (mask : Nat) :
    ∀ (ts : List Nat) (q : List SDLEvent),
    (peepGetScan firstUser mask ts q = (none, q) ∧
      ∀ t ∈ ts, peepActive firstUser mask t = true →
        ∀ e ∈ q, e.etype ≠ u32 (pg_type_to_sdl firstUser (t : Int))) ∨
    (∃ ts₁ t₀ ts₂ A e B,
      ts = ts₁ ++ t₀ :: ts₂ ∧
      peepActive firstUser mask t₀ = true ∧
      e.etype = u32 (pg_type_to_sdl firstUser (t₀ : Int)) ∧
      q = A ++ e :: B ∧
      (∀ x ∈ A, x.etype ≠ u32 (pg_type_to_sdl firstUser (t₀ : Int))) ∧
      (∀ t ∈ ts₁, peepActive firstUser mask t = true →
        ∀ x ∈ q, x.etype ≠ u32 (pg_type_to_sdl firstUser (t : Int))) ∧
      peepGetScan firstUser mask ts q = (some e, A ++ B))
  | [], q => Or.inl ⟨rfl, by simp⟩
  | t :: ts, q => by
    by_cases hact : peepActive firstUser mask t = true
    · rcases takeFirst_spec (u32 (pg_type_to_sdl firstUser (t : Int))) q with
        ⟨hnone, hall⟩ | ⟨A, e, B, hq, he, hA, htake⟩
      · rcases peepGetScan_spec firstUser mask ts q with
          ⟨hrec, hind⟩ | ⟨ts₁, t₀, ts₂, A, e, B, hts, hact₀, he, hq, hA, hts₁, hscan⟩
        · refine Or.inl ⟨by simp [peepGetScan, hact, hnone, hrec], ?_⟩
          intro u hu hau x hx
          rcases List.mem_cons.mp hu with rfl | hmem
          · exact hall x hx
          · exact hind u hmem hau x hx
        · refine Or.inr ⟨t :: ts₁, t₀, ts₂, A, e, B, by simp [hts], hact₀, he, hq, hA, ?_,
            by simp [peepGetScan, hact, hnone, hscan]⟩
          intro u hu hau x hx
          rcases List.mem_cons.mp hu with rfl | hmem
          · exact hall x hx
          · exact hts₁ u hmem hau x hx
      · exact Or.inr ⟨[], t, ts, A, e, B, by simp, hact, he, hq, hA, by simp,
          by simp [peepGetScan, hact, htake]⟩
    · rcases peepGetScan_spec firstUser mask ts q with
        ⟨hrec, hind⟩ | ⟨ts₁, t₀, ts₂, A, e, B, hts, hact₀, he, hq, hA, hts₁, hscan⟩
      · refine Or.inl ⟨by simp [peepGetScan, hact, hrec], ?_⟩
        intro u hu hau x hx
        rcases List.mem_cons.mp hu with rfl | hmem
        · exact absurd hau hact
        · exact hind u hmem hau x hx
      · refine Or.inr ⟨t :: ts₁, t₀, ts₂, A, e, B, by simp [hts], hact₀, he, hq, hA, ?_,
          by simp [peepGetScan, hact, hscan]⟩
        intro u hu hau x hx
        rcases List.mem_cons.mp hu with rfl | hmem
        · exact absurd hau hact
        · exact hts₁ u hmem hau x hx

/-- A scan slot certifies activity and a code match. -/
theorem scanMin_eq_some_elim (firstUser : Int) (mask : Nat) {e : SDLEvent} {t : Nat}
    (h : scanMin firstUser mask e = some t) :
    peepActive firstUser mask t = true ∧ e.etype = u32 (pg_type_to_sdl firstUser (t : Int)) := by
  have hp := List.find?_some h
  simpa [scanMatch] using hp

/-- A scan slot lies among the scanned types. -/
theorem scanMin_mem (firstUser : Int) (mask : Nat) {e : SDLEvent} {t : Nat}
    (h : scanMin firstUser mask e = some t) : t ∈ peepScanTypes :=
  List.mem_of_find?_eq_some h

/-- Characterization of the scan slot from a split of the type list:
    if the types before t₀ do not match the event and t₀ does, the
    slot is t₀. -/
theorem scanMin_of_split (firstUser : Int) (mask : Nat) {e : SDLEvent}
    {ts₁ ts₂ : List Nat} {t₀ : Nat}
    (hts : peepScanTypes = ts₁ ++ t₀ :: ts₂)
    (hmatch : scanMatch firstUser mask e t₀ = true)
    (hbefore : ∀ t ∈ ts₁, scanMatch firstUser mask e t = false) :
    scanMin firstUser mask e = some t₀ := by
  unfold scanMin
  rw [hts, List.find?_append]
  have h1 : ts₁.find? (scanMatch firstUser mask e) = none :=
    List.find?_eq_none.mpr (fun x hx => by simp [hbefore x hx])
  simp [h1, hmatch]

/-- A flat map over functions empty on the list is empty. -/
theorem flatMap_nil_of_all {α β : Type} {l : List α} {f : α → List β}
    (h : ∀ x ∈ l, f x = []) : l.flatMap f = [] := by
  induction l with
  | nil => simp
  | cons x xs ih =>
    simp [h x (by simp), ih (fun y hy => h y (by simp [hy]))]

/-- A flat map only depends on the values on the list. -/
theorem flatMap_congr_mem {α β : Type} {l : List α} {f g : α → List β}
    (h : ∀ x ∈ l, f x = g x) : l.flatMap f = l.flatMap g := by
  induction l with
  | nil => simp
  | cons x xs ih =>
    simp [h x (by simp), ih (fun y hy => h y (by simp [hy]))]

/-- Fuel equal to the queue length suffices for the drain loop, and
    the removal order is exactly the grouped order: all events of the
    lowest scan slot in arrival order, then those of the next slot,
    and so on. -/
theorem eventGetAux_grouped (firstUser : Int) (mask : Nat) :
    ∀ (fuel : Nat) (q : List SDLEvent), q.length ≤ fuel →
      (eventGetAux firstUser mask fuel q).1 = groupedDrain firstUser mask q := by
  intro fuel
  induction fuel with
  | zero =>
    intro q hq
    have hnil : q = [] := List.eq_nil_of_length_eq_zero (Nat.le_zero.mp hq)
    subst hnil
    simp only [eventGetAux, groupedDrain]
    exact (flatMap_nil_of_all (fun t _ => by simp)).symm
  | succ n ih =>
    intro q hq
    rcases peepGetScan_spec firstUser mask peepScanTypes q with
      ⟨hscan, hall⟩ | ⟨ts₁, t₀, ts₂, A, e, B, hts, hact₀, hecode, hqe, hA, hts₁, hscan⟩
    · have hg : groupedDrain firstUser mask q = [] := by
        apply flatMap_nil_of_all
        intro t _
        rw [List.filter_eq_nil_iff]
        intro x hx
        simp only [decide_eq_true_eq]
        intro hmin
        have hel := scanMin_eq_some_elim firstUser mask hmin
        exact hall t (scanMin_mem firstUser mask hmin) hel.1 x hx hel.2
      simp [eventGetAux, PG_PeepEventsGetOne, hscan, hg]
    · subst hqe
      have hlen : (A ++ B).length ≤ n := by
        simp only [List.length_append, List.length_cons] at hq ⊢
        omega
      have hihe := ih (A ++ B) hlen
      have hL : (eventGetAux firstUser mask (n + 1) (A ++ e :: B)).1
          = e :: (eventGetAux firstUser mask n (A ++ B)).1 := by
        simp [eventGetAux, PG_PeepEventsGetOne, hscan]
      rw [hL, hihe]
      have hndp : peepScanTypes.Nodup := by decide
      have ht₀ts₂ : t₀ ∉ ts₂ := by
        rw [hts] at hndp
        rcases List.nodup_append.mp hndp with ⟨_, hnd2, _⟩
        exact (List.nodup_cons.mp hnd2).1
      have hminE : scanMin firstUser mask e = some t₀ := by
        apply scanMin_of_split firstUser mask hts
        · simp [scanMatch, hact₀, hecode]
        · intro t htm
          by_cases ha : peepActive firstUser mask t = true
          · have hne := hts₁ t htm ha e (by simp)
            simp [scanMatch, ha, hne]
          · have ha' : peepActive firstUser mask t = false := by
              revert ha
              cases peepActive firstUser mask t <;> simp
            simp [scanMatch, ha']
      have hzero1 : ∀ t ∈ ts₁,
          (A ++ e :: B).filter (fun x => scanMin firstUser mask x = some t) = [] := by
        intro t htm
        rw [List.filter_eq_nil_iff]
        intro x hx
        simp only [decide_eq_true_eq]
        intro hmin
        have hel := scanMin_eq_some_elim firstUser mask hmin
        exact hts₁ t htm hel.1 x hx hel.2
      have hzero1' : ∀ t ∈ ts₁,
          (A ++ B).filter (fun x => scanMin firstUser mask x = some t) = [] := by
        intro t htm
        rw [List.filter_eq_nil_iff]
        intro x hx
        simp only [decide_eq_true_eq]
        intro hmin
        have hx' : x ∈ A ++ e :: B := by
          rcases List.mem_append.mp hx with hmem | hmem
          · exact List.mem_append.mpr (Or.inl hmem)
          · exact List.mem_append.mpr (Or.inr (List.mem_cons.mpr (Or.inr hmem)))
        have hel := scanMin_eq_some_elim firstUser mask hmin
        exact hts₁ t htm hel.1 x hx' hel.2
      have hAf : A.filter (fun x => scanMin firstUser mask x = some t₀) = [] := by
        rw [List.filter_eq_nil_iff]
        intro x hx
        simp only [decide_eq_true_eq]
        intro hmin
        exact hA x hx (scanMin_eq_some_elim firstUser mask hmin).2
      have hmid : (A ++ e :: B).filter (fun x => scanMin firstUser mask x = some t₀)
          = e :: (A ++ B).filter (fun x => scanMin firstUser mask x = some t₀) := by
        simp [List.filter_append, List.filter_cons, hAf, hminE]
      have hts₂eq : ∀ t ∈ ts₂,
          (A ++ e :: B).filter (fun x => scanMin firstUser mask x = some t)
            = (A ++ B).filter (fun x => scanMin firstUser mask x = some t) := by
        intro t htm
        have hne : ¬ (scanMin firstUser mask e = some t) := by
          rw [hminE]
          intro hcontra
          obtain rfl := Option.some.inj hcontra
          exact ht₀ts₂ htm
        simp [List.filter_append, List.filter_cons, hne]
      unfold groupedDrain
      rw [hts, List.flatMap_append, List.flatMap_append, List.flatMap_cons, List.flatMap_cons]
      rw [flatMap_nil_of_all hzero1, flatMap_nil_of_all hzero1', hmid,
        flatMap_congr_mem hts₂eq]
      simp

/-- The scan guard only reads one mask bit. -/
theorem peepActive_mask_congr (firstUser : Int) {m₁ m₂ : Nat} {t : Nat}
    (h : m₁.testBit t = m₂.testBit t) :
    peepActive firstUser m₁ t = peepActive firstUser m₂ t := by
  simp [peepActive, h]

/-- The removal scan only reads the mask bits of the scanned types. -/
theorem peepGetScan_mask_congr (firstUser : Int) {m₁ m₂ : Nat}
    (h : ∀ t ∈ peepScanTypes, m₁.testBit t = m₂.testBit t) :
    ∀ (ts : List Nat), (∀ t ∈ ts, t ∈ peepScanTypes) →
      ∀ q, peepGetScan firstUser m₁ ts q = peepGetScan firstUser m₂ ts q
  | [], _, q => rfl
  | t :: ts, hsub, q => by
    have hact : peepActive firstUser m₁ t = peepActive firstUser m₂ t :=
      peepActive_mask_congr firstUser (h t (hsub t (by simp)))
    have hrec :=
      peepGetScan_mask_congr firstUser h ts (fun u hu => hsub u (by simp [hu])) q
    simp only [peepGetScan]
    rw [hact, hrec]

/-- The drain loop only reads the mask bits of the scanned types. -/
theorem eventGetAux_mask_congr (firstUser : Int) {m₁ m₂ : Nat}
    (h : ∀ t ∈ peepScanTypes, m₁.testBit t = m₂.testBit t) :
    ∀ (fuel : Nat) (q : List SDLEvent),
      eventGetAux firstUser m₁ fuel q = eventGetAux firstUser m₂ fuel q
  | 0, _ => rfl
  | fuel + 1, q => by
    have hscan := peepGetScan_mask_congr firstUser h peepScanTypes (fun t ht => ht) q
    simp only [eventGetAux, PG_PeepEventsGetOne]
    rw [hscan]
    rcases peepGetScan firstUser m₂ peepScanTypes q with ⟨o, q'⟩
    cases o with
    | none => rfl
    | some e => simp [eventGetAux_mask_congr firstUser h fuel q']

/-- Mapping the logical type over the decode fold of event_get gives
    the classifications of the removed records in order. -/
theorem decodeFold_map_etype (firstUser lastUser : Int) :
    ∀ (removed : List SDLEvent) (p : List PyEventObject × Registry PyDict),
      ((removed.foldl (decodeFold firstUser lastUser) p).1).map PyEventObject.etype
        = p.1.map PyEventObject.etype ++ removed.map (sdl_to_pg firstUser lastUser)
  | [], p => by simp
  | e :: rest, p => by
    simp only [List.foldl_cons]
    rw [decodeFold_map_etype firstUser lastUser rest (decodeFold firstUser lastUser p e)]
    rcases hdx : dict_from_event firstUser lastUser p.2 e with ⟨d, rg⟩
    simp [decodeFold, PyEvent_New, hdx]

/-- Claim C10 counterexample.  The claim says the sequence returned by
    get is grouped by ascending logical type.  The three window-derived
    logical types share one native code, and the scan retrieves any
    window event at the slot of the lowest of them (active-state, 1);
    so a queue holding a RESIZED window event and then a keydown is
    drained as [PGE_VIDEORESIZE, PGE_KEYDOWN] = [16, 2], a decreasing
    logical-type sequence. -/
theorem claim_C10_order_counterexample :
    (eventGetRemoved (-1) PGE_ALLEVENTS
        [{ etype := SDL_WINDOWEVENT, winEvent := SDL_WINDOWEVENT_RESIZED },
         { etype := SDL_KEYDOWN }]).map (sdl_to_pg (-1) (-1))
      = [PGE_VIDEORESIZE, PGE_KEYDOWN] ∧
    ¬ (PGE_VIDEORESIZE ≤ PGE_KEYDOWN) := by
  decide

/-- Claim C10, amended.  The drain of event_get (and event_clear, the
    same loop) removes events grouped by ascending scan slot: the
    removal order equals the concatenation, over the scanned logical
    types 1 through 31 in ascending order, of the queued events whose
    least scanned matching type is that type, each block in arrival
    order (so arrival order is preserved exactly within a scan slot,
    and the output is grouped by ascending logical type whenever each
    event decodes to the type of its slot, which the window aliasing
    of the counterexample breaks).  Logical type 0 is never scanned:
    bit 0 of the mask is irrelevant.  The decoded sequence of get
    carries the classifications of the removed records in order. -/
theorem claim_C10_get_grouped (firstUser lastUser : Int) (mask : Nat) (st : SDLState) :
    eventGetRemoved firstUser mask st.queue = groupedDrain firstUser mask st.queue ∧
    eventGetRemoved firstUser (mask ||| 1) st.queue
      = eventGetRemoved firstUser mask st.queue ∧
    (event_get firstUser lastUser mask st).1.map PyEventObject.etype
      = (eventGetRemoved firstUser mask st.queue).map (sdl_to_pg firstUser lastUser) ∧
    (event_clear firstUser mask st).queue = (event_get firstUser lastUser mask st).2.queue := by
  refine ⟨?_, ?_, ?_, rfl⟩
  · exact eventGetAux_grouped firstUser mask st.queue.length st.queue (Nat.le_refl _)
  · have hbits : ∀ t ∈ peepScanTypes, (mask ||| 1).testBit t = mask.testBit t := by
      intro t ht
      have h1 : 1 ≤ t := by
        rcases List.mem_range'.mp ht with ⟨i, _, rfl⟩
        omega
      have hone : Nat.testBit 1 t = false := by
        rw [← Bool.not_eq_true, Nat.testBit_one_eq_true_iff_self_eq_zero]
        omega
      simp [Nat.testBit_or, hone]
    unfold eventGetRemoved
    rw [eventGetAux_mask_congr firstUser hbits]
  · have hfold := decodeFold_map_etype firstUser lastUser
      (eventGetAux firstUser mask st.queue.length st.queue).1 ([], st.reg)
    simpa [event_get, eventGetRemoved] using hfold
